import Mathlib

/-!
Shallow embedding of the ratelimit-proxy service (src/index.ts): the
in-memory counter backend with its periodic sweep, the Redis Lua script,
the backend selector with per-call fallback, the HMAC auth guard, and the
HTTP handlers for POST /ratelimit and GET /health.

Times are milliseconds as `Nat` (values of `Date.now()`), TTLs are seconds.
JavaScript `Map` is modelled as an association list with first-binding
lookup and in-place replacement, matching the unique-key discipline of
`Map`.  The `Number()` builtin is treated parametrically, like the HMAC:
the guard takes the conversion function as an argument, and a JS number is
modelled as NaN, an infinity, or a finite value (every finite IEEE double
is rational); a small decimal-integer instance of the builtin, which
agrees with `Number()` on that fragment, supplies concrete test vectors.
-/

namespace RatelimitProxy

/-- A record of the in-memory fallback store:
`{ count: number; expiresAt: number }` (src/index.ts line 15). -/
structure CounterRecord where
  count : Nat
  expiresAt : Nat
  deriving Repr, DecidableEq

/-- The in-memory fallback store `memoryStore : Map<string, CounterRecord>`,
modelled as an association list with unique-key discipline. -/
abbrev MemStore : Type := List (String × CounterRecord)

/-- Lookup, `memoryStore.get key`: first-binding semantics. -/
def memGet : MemStore → String → Option CounterRecord
  | [], _ => none
  | (k, v) :: rest, key => if k = key then some v else memGet rest key

/-- Write, `memoryStore.set key value` (also covers the in-place mutation
`existing.count++`, which rebinds the same key): replace the first binding
of `key`, or append a new binding when absent. -/
def memSet : MemStore → String → CounterRecord → MemStore
  | [], key, v => [(key, v)]
  | (k, w) :: rest, key, v =>
      if k = key then (key, v) :: rest else (k, w) :: memSet rest key v

/-- Size of the map, `memoryStore.size`. -/
def memSize (store : MemStore) : Nat := store.length

/-- The periodic cleanup (src/index.ts lines 18-25): every record with
`expiresAt <= now` is deleted; records with `expiresAt > now` are kept. -/
def sweep (now : Nat) (store : MemStore) : MemStore :=
  store.filter (fun kv => decide (now < kv.2.expiresAt))

/-- Ceiling division, `Math.ceil(n / 1000)` for a natural `n` (the
millisecond remainder of the window, always nonnegative where used). -/
def jsCeilDiv1000 (n : Nat) : Nat := (n + 999) / 1000

/-- The `{ current, ttl }` pair returned by `rateLimit`.  `ttl` is an `Int`
because the Redis `TTL` command can return `-1`/`-2`. -/
structure CounterResult where
  current : Nat
  ttl : Int
  deriving Repr, DecidableEq

/-- The in-memory fallback path of `rateLimit` (src/index.ts lines 114-132):
a live record (`expiresAt > now`) is incremented in place and
`ttl = Math.ceil((expiresAt - now) / 1000)`; otherwise the record is
(re)created as `{count: 1, expiresAt: now + duration * 1000}` with
`ttl = duration`.  The `limit` argument is bound by the source but unused
on this path. -/
def rateLimitMemory (store : MemStore) (now : Nat) (key : String)
    (limit duration : Nat) : CounterResult × MemStore :=
  match memGet store key with
  | some existing =>
      if now < existing.expiresAt then
        ({ current := existing.count + 1,
           ttl := (jsCeilDiv1000 (existing.expiresAt - now) : Int) },
         memSet store key
           { count := existing.count + 1, expiresAt := existing.expiresAt })
      else
        ({ current := 1, ttl := (duration : Int) },
         memSet store key { count := 1, expiresAt := now + duration * 1000 })
  | none =>
      ({ current := 1, ttl := (duration : Int) },
       memSet store key { count := 1, expiresAt := now + duration * 1000 })

/-- A Redis string key holding a counter: its integer value and, when an
expiry is set, its remaining time-to-live in seconds. -/
structure RedisEntry where
  value : Nat
  ttlSec : Option Nat
  deriving Repr, DecidableEq

/-- The Redis keyspace visible to the Lua script. -/
abbrev RedisState : Type := List (String × RedisEntry)

/-- Redis key lookup (first binding). -/
def redisGet : RedisState → String → Option RedisEntry
  | [], _ => none
  | (k, v) :: rest, key => if k = key then some v else redisGet rest key

/-- Redis key write: replace the first binding of `key`, or create it. -/
def redisSet : RedisState → String → RedisEntry → RedisState
  | [], key, v => [(key, v)]
  | (k, w) :: rest, key, v =>
      if k = key then (key, v) :: rest else (k, w) :: redisSet rest key v

/-- Number of keys in the Redis keyspace (the shared backend's store size). -/
def redisSize (rst : RedisState) : Nat := rst.length

/-- The Lua `RATE_LIMIT_SCRIPT` (src/index.ts lines 70-82): `INCR key`
(creating the key at 1 when absent, with no expiry); if the post-increment
value is exactly 1, `EXPIRE key duration`; then `TTL key` (`-1` when the key
has no expiry, `-2` when absent) and return `{current, ttl}`.  The script
binds `limit = tonumber(ARGV[1])` but never uses it. -/
def evalRateLimitScript (rst : RedisState) (key : String)
    (limit duration : Nat) : (Nat × Int) × RedisState :=
  let _lim : Int := (limit : Int)
  let current : Nat :=
    match redisGet rst key with
    | none => 1
    | some e => e.value + 1
  let rst1 : RedisState :=
    match redisGet rst key with
    | none => redisSet rst key { value := 1, ttlSec := none }
    | some e => redisSet rst key { value := e.value + 1, ttlSec := e.ttlSec }
  let rst2 : RedisState :=
    if current = 1 then
      match redisGet rst1 key with
      | none => rst1
      | some e => redisSet rst1 key { value := e.value, ttlSec := some duration }
    else rst1
  let ttl : Int :=
    match redisGet rst2 key with
    | none => -2
    | some e =>
        match e.ttlSec with
        | none => -1
        | some t => (t : Int)
  ((current, ttl), rst2)

/-- The backend selector `rateLimit` (src/index.ts lines 92-133).
`redisNonNull` models `redis !== null`; `connected` models the
`redisConnected` health flag;
`redisFails` models the attempted `redis.eval` throwing (caught by the
`try/catch`).  When `redis && redisConnected` holds the script is attempted:
on success its result is returned and the memory store is untouched; on
failure the call falls through to the memory path.  Otherwise the memory
path runs directly.  The function is total: no error escapes to the caller. -/
def rateLimit (redisNonNull connected redisFails : Bool) (rst : RedisState)
    (store : MemStore) (now : Nat) (key : String) (limit duration : Nat) :
    (CounterResult × MemStore) × RedisState :=
  if redisNonNull && connected then
    if redisFails then
      (rateLimitMemory store now key limit duration, rst)
    else
      let r := evalRateLimitScript rst key limit duration
      (({ current := r.1.1, ttl := r.1.2 }, store), r.2)
  else
    (rateLimitMemory store now key limit duration, rst)

/-- Body of a POST /ratelimit response (src/index.ts lines 192-202). -/
inductive RLBody where
  | deny (retryAfter : Int)
  | allow (remaining : Int)
  deriving Repr, DecidableEq

/-- The admission decision of the POST /ratelimit handler
(src/index.ts lines 192-202): `current > points` gives
`429 {allowed:false, retryAfter: ttl}`, otherwise
`200 {allowed:true, remaining: points - current}`. -/
def engineCheck (points : Nat) (r : CounterResult) : Nat × RLBody :=
  if r.current > points then (429, RLBody.deny r.ttl)
  else (200, RLBody.allow ((points : Int) - (r.current : Int)))

/-- The POST /ratelimit handler on the memory-fallback path
(src/index.ts lines 187-203 with `rateLimit` taking the in-memory branch):
prefix the key with `rl:`, increment, decide. -/
def postRatelimitMem (store : MemStore) (now : Nat) (key : String)
    (points duration : Nat) : (Nat × RLBody) × MemStore :=
  let r := rateLimitMemory store now ("rl:" ++ key) points duration
  (engineCheck points r.1, r.2)

/-- Body of the GET /health response (src/index.ts lines 208-216). -/
structure HealthBody where
  status : String
  redis : String
  memoryStoreSize : Nat
  deriving Repr, DecidableEq

/-- The GET /health handler (src/index.ts lines 208-216): a plain object
return, which the framework serves with status 200.  It reads only the
`redisConnected` flag and the in-memory `memoryStore`; the Redis keyspace
is never consulted. -/
def healthHandler (connected : Bool) (store : MemStore) : Nat × HealthBody :=
  (200,
   { status := "ok",
     redis :=
       if connected then "connected" else "disconnected (using memory fallback)",
     memoryStoreSize := memSize store })

/-- Value of a decimal digit character, `none` for any other character. -/
def decDigit (c : Char) : Option Nat :=
  if '0' ≤ c ∧ c ≤ '9' then some (c.toNat - 48) else none

/-- Accumulating decimal parser over a character list: fails on the first
non-digit. -/
def parseDecNatAux : List Char → Nat → Option Nat
  | [], acc => some acc
  | c :: cs, acc =>
      match decDigit c with
      | none => none
      | some d => parseDecNatAux cs (acc * 10 + d)

/-- A nonempty all-digit character list read as a decimal natural. -/
def parseDecNat : List Char → Option Nat
  | [] => none
  | cs => parseDecNatAux cs 0

/-- Decimal reading of a character list with an optional leading minus;
the empty list reads as `0` (the JavaScript `Number("")` quirk). -/
def jsNumberChars : List Char → Option Int
  | [] => some 0
  | c :: cs =>
      if c = '-' then (parseDecNat cs).map (fun n => -(n : Int))
      else (parseDecNat (c :: cs)).map (fun n => (n : Int))

/-- Model of a JavaScript number as the guard consumes one: NaN, an
infinity, or a finite value — every finite IEEE double is a rational. -/
inductive JsNum where
  | nan
  | posInf
  | negInf
  | finite (q : ℚ)
  deriving DecidableEq

/-- JavaScript truthiness of a number (the guard's `!ts`): NaN and `0` are
falsy, every other value — including negative and infinite ones — truthy. -/
def JsNum.falsy : JsNum → Bool
  | JsNum.nan => true
  | JsNum.posInf => false
  | JsNum.negInf => false
  | JsNum.finite q => decide (q = 0)

/-- The guard's clock-skew test `Math.abs(Date.now() - ts) > 30000` on a
JS number `ts`: a comparison against NaN is false, an infinite difference
exceeds every bound, and a finite difference compares exactly. -/
def skewExceeded (now : Int) : JsNum → Bool
  | JsNum.nan => false
  | JsNum.posInf => true
  | JsNum.negInf => true
  | JsNum.finite q => decide ((30000 : ℚ) < |(now : ℚ) - q|)

/-- One concrete instance of the `Number()` builtin, defined on the
fragment this file uses for test vectors: an absent value is NaN, the
empty string is `0`, and an optionally `-`-signed decimal integer literal
is its value.  On these inputs it agrees with ECMAScript `Number()`; the
theorems about the guard quantify over the builtin and do not depend on
this instance's behavior elsewhere. -/
def jsNumberIntLit : Option String → JsNum
  | none => JsNum.nan
  | some s =>
      match jsNumberChars s.data with
      | none => JsNum.nan
      | some i => JsNum.finite (i : ℚ)

/-- The request headers the preHandler hook reads. -/
structure Headers where
  authorization : Option String
  xTimestamp : Option String
  xSignature : Option String
  deriving Repr, DecidableEq

/-- Outcome of the preHandler hook: a rejection reply, or fall-through to
the route handler. -/
inductive AuthResult where
  | unauthorized
  | missingSignature
  | expiredRequest
  | invalidSignature
  | ok
  deriving Repr, DecidableEq

/-- The HTTP status and error body each rejection sends
(src/index.ts lines 142-167). -/
def authReply : AuthResult → Option (Nat × String)
  | AuthResult.unauthorized => some (401, "Unauthorized")
  | AuthResult.missingSignature => some (400, "Missing signature")
  | AuthResult.expiredRequest => some (401, "Expired request")
  | AuthResult.invalidSignature => some (401, "Invalid signature")
  | AuthResult.ok => none

/-- JavaScript truthiness of an optional string header:
`!sig` holds when it is absent or the empty string. -/
def strFalsy : Option String → Bool
  | none => true
  | some s => s = ""

/-- The preHandler hook (src/index.ts lines 138-168).  `hmacHex` abstracts
the builtin `crypto.createHmac("sha256", secret)...digest("hex")` as a
function of the signed string; `numberFn` abstracts the builtin
`Number(...)` applied to the optional `x-timestamp` header, and
`numToString` the builtin `ts.toString()`.  For `/health` only the bearer
token is checked; for other routes `ts = Number(headers["x-timestamp"])`
and the signature header are read, then in order: bearer check,
`!ts || !sig` check, clock-skew check (`Math.abs(now - ts) > 30000`),
HMAC comparison against `hmacHex(ts.toString())`. -/
def preHandler (secret : String) (hmacHex : String → String)
    (numberFn : Option String → JsNum) (numToString : JsNum → String)
    (now : Int) (isHealth : Bool) (h : Headers) : AuthResult :=
  if isHealth then
    if strFalsy h.authorization ||
        !(decide (h.authorization = some ("Bearer " ++ secret))) then
      AuthResult.unauthorized
    else AuthResult.ok
  else
    let ts := numberFn h.xTimestamp
    if strFalsy h.authorization ||
        !(decide (h.authorization = some ("Bearer " ++ secret))) then
      AuthResult.unauthorized
    else if ts.falsy || strFalsy h.xSignature then
      AuthResult.missingSignature
    else if skewExceeded now ts then
      AuthResult.expiredRequest
    else if !(decide (h.xSignature = some (hmacHex (numToString ts)))) then
      AuthResult.invalidSignature
    else AuthResult.ok

/-- State of the Redis connection globals: whether `redis` is non-null
(src/index.ts line 11) and the `redisConnected` flag (line 12). -/
structure ConnState where
  redisNonNull : Bool
  connected : Bool
  deriving Repr, DecidableEq

/-- Connection lifecycle events: `initRedis` is `connectRedis()` with
`REDIS_URL` set (assigns the `redis` object, src/index.ts line 34); the
`connect`, `error` and `close` events fire handlers that exist only when
`redis` was assigned (lines 43-56). -/
inductive ConnEvent where
  | initRedis
  | connect
  | error
  | close
  deriving Repr, DecidableEq

/-- One transition of the connection lifecycle (src/index.ts lines 28-57):
`connect` sets the flag true, `error` and `close` set it false; all three
are no-ops while `redis` is null because their handlers are registered on
the `redis` object. -/
def connStep (s : ConnState) : ConnEvent → ConnState
  | ConnEvent.initRedis => { s with redisNonNull := true }
  | ConnEvent.connect =>
      if s.redisNonNull then { s with connected := true } else s
  | ConnEvent.error =>
      if s.redisNonNull then { s with connected := false } else s
  | ConnEvent.close =>
      if s.redisNonNull then { s with connected := false } else s

/-- The connection state after a sequence of lifecycle events, from the
initial globals `redis = null`, `redisConnected = false`
(src/index.ts lines 11-12). -/
def connRun (evs : List ConnEvent) : ConnState :=
  evs.foldl connStep { redisNonNull := false, connected := false }

/-- The `CounterResult` the selector builds from a successful script call
(src/index.ts line 107): `{ current: result[0], ttl: result[1] }`. -/
def scriptCounterResult (rst : RedisState) (key : String)
    (limit duration : Nat) : CounterResult :=
  { current := (evalRateLimitScript rst key limit duration).1.1,
    ttl := (evalRateLimitScript rst key limit duration).1.2 }

/-- Store invariant of the spec's CounterRecord data model: every record
present in the map has `count ≥ 1`. -/
def StoreWF (store : MemStore) : Prop :=
  ∀ kv ∈ store, 1 ≤ (kv : String × CounterRecord).2.count

instance (store : MemStore) : Decidable (StoreWF store) := by
  unfold StoreWF
  infer_instance

/-- Scenario A outcome: six back-to-back POST /ratelimit calls for
`key = "test-user"`, `points = 5`, `duration = 10`, at times `t0 .. t5`,
starting from `store`: the first five allow with remaining 4,3,2,1,0 and
stored counts 1..5 in the unchanged window `[t0, t0 + 10000)`, the sixth
denies with `0 ≤ retryAfter ≤ 10`. -/
def ScenarioAProp (store : MemStore) (t0 t1 t2 t3 t4 t5 : Nat) : Prop :=
  let r1 := postRatelimitMem store t0 "test-user" 5 10
  let r2 := postRatelimitMem r1.2 t1 "test-user" 5 10
  let r3 := postRatelimitMem r2.2 t2 "test-user" 5 10
  let r4 := postRatelimitMem r3.2 t3 "test-user" 5 10
  let r5 := postRatelimitMem r4.2 t4 "test-user" 5 10
  let r6 := postRatelimitMem r5.2 t5 "test-user" 5 10
  r1.1 = (200, RLBody.allow 4) ∧
  r2.1 = (200, RLBody.allow 3) ∧
  r3.1 = (200, RLBody.allow 2) ∧
  r4.1 = (200, RLBody.allow 1) ∧
  r5.1 = (200, RLBody.allow 0) ∧
  memGet r1.2 "rl:test-user" = some { count := 1, expiresAt := t0 + 10000 } ∧
  memGet r2.2 "rl:test-user" = some { count := 2, expiresAt := t0 + 10000 } ∧
  memGet r3.2 "rl:test-user" = some { count := 3, expiresAt := t0 + 10000 } ∧
  memGet r4.2 "rl:test-user" = some { count := 4, expiresAt := t0 + 10000 } ∧
  memGet r5.2 "rl:test-user" = some { count := 5, expiresAt := t0 + 10000 } ∧
  ∃ ra : Int, r6.1 = (429, RLBody.deny ra) ∧ 0 ≤ ra ∧ ra ≤ 10

/-! Helper lemmas about the association-list store operations. -/

theorem memGet_memSet_self (store : MemStore) (key : String)
    (v : CounterRecord) : memGet (memSet store key v) key = some v := by
  induction store with
  | nil => simp [memSet, memGet]
  | cons kv rest ih =>
      obtain ⟨k1, v1⟩ := kv
      by_cases h : k1 = key
      · simp [memSet, h, memGet]
      · simp [memSet, h, memGet, ih]

theorem memGet_memSet_ne (store : MemStore) (key k : String)
    (v : CounterRecord) (hne : k ≠ key) :
    memGet (memSet store key v) k = memGet store k := by
  have hne2 : ¬ key = k := fun h => hne h.symm
  induction store with
  | nil => simp [memSet, memGet, hne2]
  | cons kv rest ih =>
      obtain ⟨k1, v1⟩ := kv
      by_cases h : k1 = key
      · subst h
        simp [memSet, memGet, hne2]
      · simp [memSet, h, memGet, ih]

theorem mem_memSet (store : MemStore) (key : String) (v : CounterRecord)
    (kv : String × CounterRecord) (hmem : kv ∈ memSet store key v) :
    kv = (key, v) ∨ kv ∈ store := by
  induction store with
  | nil => simpa [memSet] using hmem
  | cons kw rest ih =>
      obtain ⟨k1, v1⟩ := kw
      by_cases h : k1 = key
      · simp only [memSet, h, if_pos] at hmem
        rcases List.mem_cons.mp hmem with h1 | h1
        · exact Or.inl h1
        · exact Or.inr (List.mem_cons_of_mem _ h1)
      · simp only [memSet, if_neg h] at hmem
        rcases List.mem_cons.mp hmem with h1 | h1
        · exact Or.inr (by simp [h1])
        · rcases ih h1 with h2 | h2
          · exact Or.inl h2
          · exact Or.inr (List.mem_cons_of_mem _ h2)

theorem memGet_mem (store : MemStore) (key : String) (rec : CounterRecord)
    (hget : memGet store key = some rec) : (key, rec) ∈ store := by
  induction store with
  | nil => simp [memGet] at hget
  | cons kv rest ih =>
      obtain ⟨k1, v1⟩ := kv
      by_cases h : k1 = key
      · subst h
        simp only [memGet, if_pos, Option.some.injEq] at hget
        subst hget
        exact List.mem_cons_self _ _
      · simp only [memGet, if_neg h] at hget
        exact List.mem_cons_of_mem _ (ih hget)

/-- The health flag implies the `redis` object exists, in every state
reachable from the initial globals: `redisConnected` is set true only by
the `connect` handler, which is registered on a non-null `redis`. -/
theorem connRun_connected_nonNull (evs : List ConnEvent) :
    (connRun evs).connected = true → (connRun evs).redisNonNull = true := by
  suffices h : ∀ (s : ConnState), (s.connected = true → s.redisNonNull = true) →
      ((evs.foldl connStep s).connected = true →
        (evs.foldl connStep s).redisNonNull = true) by
    exact h { redisNonNull := false, connected := false } (by simp)
  induction evs with
  | nil => intro s hs; simpa using hs
  | cons e rest ih =>
      intro s hs
      simp only [List.foldl_cons]
      apply ih
      cases e with
      | initRedis => simp [connStep]
      | connect =>
          by_cases h : s.redisNonNull = true
          · simp [connStep, h]
          · intro hc
            simpa [connStep, h] using hs (by simpa [connStep, h] using hc)
      | error =>
          by_cases h : s.redisNonNull = true
          · simp [connStep, h]
          · intro hc
            simpa [connStep, h] using hs (by simpa [connStep, h] using hc)
      | close =>
          by_cases h : s.redisNonNull = true
          · simp [connStep, h]
          · intro hc
            simpa [connStep, h] using hs (by simpa [connStep, h] using hc)

/-! The claims. -/

/-- C1: for every backend result `{count, ttl}` under positive `points` and
`duration`, `count > points` yields the 429 deny response with
`retryAfter = ttl`, and `count ≤ points` yields the 200 allow response with
`remaining = points - count`, which is nonnegative. -/
theorem engine_decision_correct (points duration : Nat) (r : CounterResult)
    (hpts : 1 ≤ points) (hdur : 1 ≤ duration) :
    (points < r.current → engineCheck points r = (429, RLBody.deny r.ttl)) ∧
    (r.current ≤ points →
      engineCheck points r =
        (200, RLBody.allow ((points : Int) - (r.current : Int))) ∧
      0 ≤ (points : Int) - (r.current : Int)) := by
  constructor
  · intro h
    simp [engineCheck, h]
  · intro h
    refine ⟨by simp [engineCheck, Nat.not_lt.mpr h], ?_⟩
    simpa using Int.sub_nonneg.mpr (Int.ofNat_le.mpr h)

theorem engine_decision_correct_witness :
    engineCheck 5 { current := 3, ttl := 7 } = (200, RLBody.allow 2) ∧
    engineCheck 5 { current := 6, ttl := 4 } = (429, RLBody.deny 4) := by
  have h1 := engine_decision_correct 5 10 { current := 3, ttl := 7 }
    (by decide) (by decide)
  have h2 := engine_decision_correct 5 10 { current := 6, ttl := 4 }
    (by decide) (by decide)
  exact ⟨by simpa using (h1.2 (by decide)).1, by simpa using h2.1 (by decide)⟩

/-- C5: window reset law of the local backend.  When the stored record has
`expiresAt ≤ now`, the increment replaces it with
`{count: 1, expiresAt: now + duration * 1000}` and returns
`{count: 1, ttl: duration}`, whatever the prior count. -/
theorem window_reset (store : MemStore) (now : Nat) (key : String)
    (limit duration : Nat) (rec : CounterRecord)
    (hget : memGet store key = some rec) (hexp : rec.expiresAt ≤ now) :
    rateLimitMemory store now key limit duration =
      ({ current := 1, ttl := (duration : Int) },
       memSet store key { count := 1, expiresAt := now + duration * 1000 }) ∧
    memGet (rateLimitMemory store now key limit duration).2 key =
      some { count := 1, expiresAt := now + duration * 1000 } := by
  have hlt : ¬ now < rec.expiresAt := Nat.not_lt.mpr hexp
  constructor
  · simp [rateLimitMemory, hget, hlt]
  · simp [rateLimitMemory, hget, hlt, memGet_memSet_self]

theorem window_reset_witness :
    memGet [("k", ({ count := 7, expiresAt := 100 } : CounterRecord))] "k" =
      some { count := 7, expiresAt := 100 } ∧
    ({ count := 7, expiresAt := 100 } : CounterRecord).expiresAt ≤ 100 ∧
    rateLimitMemory [("k", { count := 7, expiresAt := 100 })] 100 "k" 5 10 =
      ({ current := 1, ttl := 10 },
       [("k", { count := 1, expiresAt := 10100 })]) := by
  refine ⟨by simp [memGet], by decide, ?_⟩
  have h := window_reset [("k", { count := 7, expiresAt := 100 })] 100 "k" 5 10
    { count := 7, expiresAt := 100 } (by simp [memGet]) (by decide)
  simpa [memSet] using h.1

/-- C6: idempotent window start.  With no live record for the key (no
entry at all, or an entry with `expiresAt ≤ now`), the increment returns
exactly `count = 1` and `ttl = duration`. -/
theorem fresh_key_start (store : MemStore) (now : Nat) (key : String)
    (limit duration : Nat)
    (hfresh : memGet store key = none ∨
      ∃ rec, memGet store key = some rec ∧ rec.expiresAt ≤ now) :
    (rateLimitMemory store now key limit duration).1 =
      { current := 1, ttl := (duration : Int) } := by
  rcases hfresh with hnone | ⟨rec, hget, hexp⟩
  · simp [rateLimitMemory, hnone]
  · simp [rateLimitMemory, hget, Nat.not_lt.mpr hexp]

theorem fresh_key_start_witness :
    (memGet ([] : MemStore) "user" = none ∨
      ∃ rec, memGet ([] : MemStore) "user" = some rec ∧ rec.expiresAt ≤ 0) ∧
    (rateLimitMemory [] 0 "user" 100 60).1 = { current := 1, ttl := 60 } := by
  refine ⟨Or.inl rfl, ?_⟩
  exact fresh_key_start [] 0 "user" 100 60 (Or.inl rfl)

/-- C2: per-call fallback of the backend selector, over every reachable
connection state.  When the health flag is true the shared backend is
attempted: a successful attempt supplies the result (memory store
untouched), a throwing attempt is caught and that single call is served by
the memory path.  When the flag is false the shared backend is skipped.
In every case the call returns a normal counter result — either the script
path's or the memory path's — never an error. -/
theorem selector_fallback (evs : List ConnEvent) (redisFails : Bool)
    (rst : RedisState) (store : MemStore) (now : Nat) (key : String)
    (limit duration : Nat) :
    ((connRun evs).connected = true →
      rateLimit (connRun evs).redisNonNull (connRun evs).connected false
          rst store now key limit duration =
        ((scriptCounterResult rst key limit duration, store),
         (evalRateLimitScript rst key limit duration).2) ∧
      rateLimit (connRun evs).redisNonNull (connRun evs).connected true
          rst store now key limit duration =
        (rateLimitMemory store now key limit duration, rst)) ∧
    ((connRun evs).connected = false →
      rateLimit (connRun evs).redisNonNull (connRun evs).connected redisFails
          rst store now key limit duration =
        (rateLimitMemory store now key limit duration, rst)) ∧
    (rateLimit (connRun evs).redisNonNull (connRun evs).connected redisFails
          rst store now key limit duration =
        ((scriptCounterResult rst key limit duration, store),
         (evalRateLimitScript rst key limit duration).2) ∨
     rateLimit (connRun evs).redisNonNull (connRun evs).connected redisFails
          rst store now key limit duration =
        (rateLimitMemory store now key limit duration, rst)) := by
  refine ⟨?_, ?_, ?_⟩
  · intro h
    have hnn := connRun_connected_nonNull evs h
    constructor
    · simp [rateLimit, hnn, h, scriptCounterResult]
    · simp [rateLimit, hnn, h]
  · intro h
    simp [rateLimit, h]
  · by_cases h : (connRun evs).connected = true
    · have hnn := connRun_connected_nonNull evs h
      cases redisFails
      · exact Or.inl (by simp [rateLimit, hnn, h, scriptCounterResult])
      · exact Or.inr (by simp [rateLimit, hnn, h])
    · exact Or.inr (by
        simp [rateLimit, Bool.eq_false_iff.mpr h])

theorem selector_fallback_witness :
    (connRun [ConnEvent.initRedis, ConnEvent.connect]).connected = true ∧
    rateLimit (connRun [ConnEvent.initRedis, ConnEvent.connect]).redisNonNull
        (connRun [ConnEvent.initRedis, ConnEvent.connect]).connected true
        [] [] 0 "rl:a" 5 10 =
      (rateLimitMemory [] 0 "rl:a" 5 10, []) := by
  refine ⟨rfl, ?_⟩
  exact ((selector_fallback [ConnEvent.initRedis, ConnEvent.connect] true
    [] [] 0 "rl:a" 5 10).1 rfl).2

/-- C9: limit noninterference.  The `limit` argument is bound but unused by
both counting layers — the Lua script and the in-memory path — and by the
selector around them: calls that differ only in `limit` return the same
`{current, ttl}` and leave the same store states.  Only `engineCheck`
consumes the limit. -/
theorem limit_noninterference (rst : RedisState) (store : MemStore)
    (now : Nat) (key : String) (l1 l2 duration : Nat)
    (redisNonNull connected redisFails : Bool) :
    evalRateLimitScript rst key l1 duration =
      evalRateLimitScript rst key l2 duration ∧
    rateLimitMemory store now key l1 duration =
      rateLimitMemory store now key l2 duration ∧
    rateLimit redisNonNull connected redisFails rst store now key l1 duration =
      rateLimit redisNonNull connected redisFails rst store now key l2 duration :=
  ⟨rfl, rfl, rfl⟩

/-- C10: in-window frame property.  Incrementing a key whose record is live
(`now < expiresAt`) changes only that record's count, by exactly one: the
window end is unchanged, the `duration` argument is irrelevant, and every
other key's binding is untouched. -/
theorem inwindow_frame (store : MemStore) (now : Nat) (key : String)
    (limit d1 d2 : Nat) (rec : CounterRecord)
    (hget : memGet store key = some rec) (hlive : now < rec.expiresAt) :
    rateLimitMemory store now key limit d1 =
      ({ current := rec.count + 1,
         ttl := (jsCeilDiv1000 (rec.expiresAt - now) : Int) },
       memSet store key { count := rec.count + 1, expiresAt := rec.expiresAt }) ∧
    memGet (rateLimitMemory store now key limit d1).2 key =
      some { count := rec.count + 1, expiresAt := rec.expiresAt } ∧
    (∀ k, k ≠ key →
      memGet (rateLimitMemory store now key limit d1).2 k = memGet store k) ∧
    rateLimitMemory store now key limit d1 =
      rateLimitMemory store now key limit d2 := by
  refine ⟨by simp [rateLimitMemory, hget, hlive], ?_, ?_, ?_⟩
  · simp [rateLimitMemory, hget, hlive, memGet_memSet_self]
  · intro k hk
    simp [rateLimitMemory, hget, hlive, memGet_memSet_ne store key k _ hk]
  · simp [rateLimitMemory, hget, hlive]

theorem inwindow_frame_witness :
    memGet [("a", ({ count := 2, expiresAt := 100 } : CounterRecord)),
            ("b", { count := 3, expiresAt := 200 })] "a" =
      some { count := 2, expiresAt := 100 } ∧
    (50 : Nat) < 100 ∧
    rateLimitMemory [("a", { count := 2, expiresAt := 100 }),
                     ("b", { count := 3, expiresAt := 200 })] 50 "a" 5 10 =
      ({ current := 3, ttl := 1 },
       [("a", { count := 3, expiresAt := 100 }),
        ("b", { count := 3, expiresAt := 200 })]) ∧
    memGet (rateLimitMemory [("a", { count := 2, expiresAt := 100 }),
        ("b", { count := 3, expiresAt := 200 })] 50 "a" 5 10).2 "b" =
      memGet [("a", ({ count := 2, expiresAt := 100 } : CounterRecord)),
              ("b", { count := 3, expiresAt := 200 })] "b" := by
  have h := inwindow_frame
    [("a", { count := 2, expiresAt := 100 }), ("b", { count := 3, expiresAt := 200 })]
    50 "a" 5 10 99 { count := 2, expiresAt := 100 }
    (by simp [memGet]) (by decide)
  refine ⟨by simp [memGet], by decide, ?_, ?_⟩
  · simpa [memSet, jsCeilDiv1000] using h.1
  · exact h.2.2.1 "b" (by decide)

/-- C8: store invariant.  Every record in the local map has `count ≥ 1`;
this is preserved by every increment (creation writes count 1, a live
record becomes `count + 1`) and by the sweep, and the sweep exactly keeps
the unmutated records with `expiresAt > now`, deleting whole records with
`expiresAt ≤ now` and never touching a count. -/
theorem count_invariant (store : MemStore) (now : Nat) (key : String)
    (limit duration : Nat) (hwf : StoreWF store) :
    StoreWF (rateLimitMemory store now key limit duration).2 ∧
    StoreWF (sweep now store) ∧
    (∀ kv : String × CounterRecord,
      kv ∈ sweep now store ↔ kv ∈ store ∧ now < kv.2.expiresAt) := by
  refine ⟨?_, ?_, ?_⟩
  · intro kv hmem
    rcases hg : memGet store key with _ | rec
    · simp only [rateLimitMemory, hg] at hmem
      rcases mem_memSet _ _ _ _ hmem with h | h
      · simp [h]
      · exact hwf kv h
    · by_cases hl : now < rec.expiresAt
      · simp only [rateLimitMemory, hg, if_pos hl] at hmem
        rcases mem_memSet _ _ _ _ hmem with h | h
        · simp [h]
        · exact hwf kv h
      · simp only [rateLimitMemory, hg, if_neg hl] at hmem
        rcases mem_memSet _ _ _ _ hmem with h | h
        · simp [h]
        · exact hwf kv h
  · intro kv hmem
    exact hwf kv (List.mem_filter.mp hmem).1
  · intro kv
    simp [sweep, List.mem_filter]

theorem count_invariant_witness :
    StoreWF [("a", ({ count := 1, expiresAt := 5 } : CounterRecord)),
             ("b", { count := 2, expiresAt := 2 })] ∧
    StoreWF (rateLimitMemory [("a", { count := 1, expiresAt := 5 }),
        ("b", { count := 2, expiresAt := 2 })] 3 "a" 5 10).2 ∧
    (("a", ({ count := 1, expiresAt := 5 } : CounterRecord)) ∈
        sweep 3 [("a", { count := 1, expiresAt := 5 }),
                 ("b", { count := 2, expiresAt := 2 })] ↔
      ("a", ({ count := 1, expiresAt := 5 } : CounterRecord)) ∈
          [("a", ({ count := 1, expiresAt := 5 } : CounterRecord)),
           ("b", { count := 2, expiresAt := 2 })] ∧
        3 < ({ count := 1, expiresAt := 5 } : CounterRecord).expiresAt) := by
  have h := count_invariant
    [("a", { count := 1, expiresAt := 5 }), ("b", { count := 2, expiresAt := 2 })]
    3 "a" 5 10 (by decide)
  exact ⟨by decide, h.1, h.2.2 _⟩

/-- C4 counterexample: with the health flag true and a nonempty Redis
keyspace, the health body still reports the local map's size (here 0), not
the shared backend's store size (here 1) — the handler never consults the
Redis keyspace, so the figure does not track the authoritative backend. -/
theorem health_size_counterexample :
    (healthHandler true []).2.memoryStoreSize = 0 ∧
    redisSize [("rl:a", ({ value := 3, ttlSec := some 40 } : RedisEntry))] = 1 ∧
    (healthHandler true []).2.memoryStoreSize ≠
      redisSize [("rl:a", { value := 3, ttlSec := some 40 })] := by
  refine ⟨rfl, rfl, ?_⟩
  decide

/-- C4 amended: the authorized GET /health response is `200` with
`status = "ok"`, a redis field `"connected"` exactly when the health flag
is true and `"disconnected (using memory fallback)"` otherwise, and
`memoryStoreSize` equal to the local in-memory map's size in both flag
states — never the shared backend's store size. -/
theorem health_response (connected : Bool) (store : MemStore) :
    (healthHandler connected store).1 = 200 ∧
    (healthHandler connected store).2.status = "ok" ∧
    (healthHandler true store).2.redis = "connected" ∧
    (healthHandler false store).2.redis =
      "disconnected (using memory fallback)" ∧
    (healthHandler connected store).2.memoryStoreSize = memSize store ∧
    (healthHandler true store).2.memoryStoreSize =
      (healthHandler false store).2.memoryStoreSize := by
  cases connected <;> exact ⟨rfl, rfl, rfl, rfl, rfl, rfl⟩

/-- C3 counterexample: an authorized non-health request whose `X-Timestamp`
is the string `"0"` — which `Number()` parses to the number `0`, as the
instantiated builtin does — and whose `X-Signature` is present is still
rejected with Missing signature, because the guard tests JavaScript
truthiness (`!ts`) and `0` is falsy. -/
theorem missing_signature_counterexample :
    jsNumberIntLit (some "0") = JsNum.finite 0 ∧
    (Headers.mk (some "Bearer s") (some "0") (some "sig")).xSignature ≠ none ∧
    preHandler "s" (fun _ => "deadbeef") jsNumberIntLit (fun _ => "") 1000
      false (Headers.mk (some "Bearer s") (some "0") (some "sig")) =
      AuthResult.missingSignature := by
  refine ⟨by decide, by decide, ?_⟩
  decide

/-- C3 amended: for every authorized non-health request, and for every
behavior of the `Number()` and number-formatting builtins, the guard
rejects with MissingSignature exactly when the value `Number()` returns
for `X-Timestamp` is NaN or the number `0` (both JavaScript-falsy), or
`X-Signature` is absent or the empty string; whenever `Number()` returns
a value that is neither NaN nor `0` and a nonempty signature is present,
the guard proceeds to the clock-skew check and beyond. -/
theorem missing_signature_exact (secret : String) (hmacHex : String → String)
    (numberFn : Option String → JsNum) (numToString : JsNum → String)
    (now : Int) (h : Headers)
    (hauth : h.authorization = some ("Bearer " ++ secret)) :
    (preHandler secret hmacHex numberFn numToString now false h =
        AuthResult.missingSignature ↔
      (numberFn h.xTimestamp = JsNum.nan ∨
       numberFn h.xTimestamp = JsNum.finite 0 ∨
       h.xSignature = none ∨ h.xSignature = some "")) ∧
    (numberFn h.xTimestamp ≠ JsNum.nan →
      numberFn h.xTimestamp ≠ JsNum.finite 0 →
      h.xSignature ≠ none → h.xSignature ≠ some "" →
      preHandler secret hmacHex numberFn numToString now false h =
        (if skewExceeded now (numberFn h.xTimestamp) then
           AuthResult.expiredRequest
         else if h.xSignature =
             some (hmacHex (numToString (numberFn h.xTimestamp))) then
           AuthResult.ok
         else AuthResult.invalidSignature)) := by
  have hbne : ("Bearer " ++ secret) ≠ "" := by
    intro hc
    have hlen := congrArg String.length hc
    rw [String.length_append] at hlen
    have h7 : ("Bearer " : String).length = 7 := rfl
    have hz : ("" : String).length = 0 := rfl
    omega
  have hfalsy : strFalsy (some ("Bearer " ++ secret)) = false := by
    simp [strFalsy, hbne]
  have hfl : ∀ ts : JsNum,
      ts.falsy = true ↔ ts = JsNum.nan ∨ ts = JsNum.finite 0 := by
    intro ts
    cases ts with
    | nan => simp [JsNum.falsy]
    | posInf => simp [JsNum.falsy]
    | negInf => simp [JsNum.falsy]
    | finite q => simp [JsNum.falsy]
  have hsf : ∀ o : Option String, strFalsy o = true ↔ o = none ∨ o = some "" := by
    intro o
    rcases o with _ | s
    · simp [strFalsy]
    · simp [strFalsy]
  have guardEq : preHandler secret hmacHex numberFn numToString now false h =
      (if ((numberFn h.xTimestamp).falsy || strFalsy h.xSignature) then
         AuthResult.missingSignature
       else if skewExceeded now (numberFn h.xTimestamp) then
         AuthResult.expiredRequest
       else if h.xSignature =
           some (hmacHex (numToString (numberFn h.xTimestamp))) then
         AuthResult.ok
       else AuthResult.invalidSignature) := by
    by_cases hmf : ((numberFn h.xTimestamp).falsy || strFalsy h.xSignature)
        = true
    · simp [preHandler, hauth, hfalsy, hbne, hmf]
    · by_cases hsk : skewExceeded now (numberFn h.xTimestamp) = true
      · simp [preHandler, hauth, hfalsy, hbne, hmf, hsk]
      · by_cases hx : h.xSignature =
            some (hmacHex (numToString (numberFn h.xTimestamp)))
        · simp [preHandler, hauth, hfalsy, hbne, hmf, hsk, hx]
        · simp [preHandler, hauth, hfalsy, hbne, hmf, hsk, hx]
  constructor
  · rw [guardEq]
    constructor
    · intro hmiss
      by_cases hc : ((numberFn h.xTimestamp).falsy || strFalsy h.xSignature)
          = true
      · have hc2 : (numberFn h.xTimestamp).falsy = true ∨
            strFalsy h.xSignature = true := by simpa using hc
        rcases hc2 with h1 | h1
        · rcases (hfl _).mp h1 with h2 | h2
          · exact Or.inl h2
          · exact Or.inr (Or.inl h2)
        · rcases (hsf _).mp h1 with h2 | h2
          · exact Or.inr (Or.inr (Or.inl h2))
          · exact Or.inr (Or.inr (Or.inr h2))
      · rw [if_neg hc] at hmiss
        by_cases hsk : skewExceeded now (numberFn h.xTimestamp) = true
        · rw [if_pos hsk] at hmiss
          exact absurd hmiss (by decide)
        · rw [if_neg hsk] at hmiss
          by_cases hx : h.xSignature =
              some (hmacHex (numToString (numberFn h.xTimestamp)))
          · rw [if_pos hx] at hmiss
            exact absurd hmiss (by decide)
          · rw [if_neg hx] at hmiss
            exact absurd hmiss (by decide)
    · intro hrhs
      have hc : ((numberFn h.xTimestamp).falsy || strFalsy h.xSignature)
          = true := by
        rcases hrhs with h1 | h1 | h1 | h1
        · simp [(hfl _).mpr (Or.inl h1)]
        · simp [(hfl _).mpr (Or.inr h1)]
        · simp [(hsf _).mpr (Or.inl h1)]
        · simp [(hsf _).mpr (Or.inr h1)]
      rw [if_pos hc]
  · intro h1 h2 h3 h4
    have hffalse : (numberFn h.xTimestamp).falsy = false := by
      rcases hft : (numberFn h.xTimestamp).falsy
      · rfl
      · rcases (hfl _).mp hft with h5 | h5
        · exact absurd h5 h1
        · exact absurd h5 h2
    have hsfalse : strFalsy h.xSignature = false := by
      rcases hft : strFalsy h.xSignature
      · rfl
      · rcases (hsf _).mp hft with h5 | h5
        · exact absurd h5 h3
        · exact absurd h5 h4
    rw [guardEq, if_neg (by simp [hffalse, hsfalse])]

theorem missing_signature_exact_witness :
    (Headers.mk (some "Bearer s") (some "100") (some "x")).authorization =
      some ("Bearer " ++ "s") ∧
    jsNumberIntLit (some "100") = JsNum.finite 100 ∧
    preHandler "s" (fun _ => "x") jsNumberIntLit (fun _ => "") 100 false
      (Headers.mk (some "Bearer s") (some "100") (some "x")) =
      AuthResult.ok := by
  refine ⟨rfl, by decide, ?_⟩
  have h2 := (missing_signature_exact "s" (fun _ => "x") jsNumberIntLit
    (fun _ => "") 100 (Headers.mk (some "Bearer s") (some "100") (some "x"))
    rfl).2 (by decide) (by decide) (by decide) (by decide)
  have hjs : jsNumberIntLit (some "100") = JsNum.finite 100 := by decide
  rw [h2]
  have hsk : skewExceeded (100 : Int)
      (jsNumberIntLit (Headers.mk (some "Bearer s") (some "100")
        (some "x")).xTimestamp) = false := by
    show skewExceeded (100 : Int) (jsNumberIntLit (some "100")) = false
    rw [hjs]
    simp only [skewExceeded, decide_eq_false_iff_not]
    norm_num
  rw [hsk]
  simp

/-- C7: Scenario A.  Starting from a store with no record for the key, six
sequential authorized calls with `key = "test-user"`, `points = 5`,
`duration = 10`, all within the 10-second window, allow with remaining
4,3,2,1,0 and stored counts 1..5, then deny with `retryAfter ≤ 10`. -/
theorem scenarioA_trace (store : MemStore) (t0 t1 t2 t3 t4 t5 : Nat)
    (h0 : memGet store "rl:test-user" = none)
    (hb1 : t1 < t0 + 10000) (hb2 : t2 < t0 + 10000) (hb3 : t3 < t0 + 10000)
    (hb4 : t4 < t0 + 10000) (hb5 : t5 < t0 + 10000) (hord : t0 ≤ t5) :
    ScenarioAProp store t0 t1 t2 t3 t4 t5 := by
  have hk : ("rl:" ++ "test-user" : String) = "rl:test-user" := rfl
  have step : ∀ (s : MemStore) (tm c : Nat),
      memGet s "rl:test-user" = some { count := c, expiresAt := t0 + 10000 } →
      tm < t0 + 10000 →
      postRatelimitMem s tm "test-user" 5 10 =
        (engineCheck 5
           { current := c + 1,
             ttl := (jsCeilDiv1000 (t0 + 10000 - tm) : Int) },
         memSet s "rl:test-user"
           { count := c + 1, expiresAt := t0 + 10000 }) := by
    intro s tm c hg hlt
    simp [postRatelimitMem, hk, rateLimitMemory, hg, hlt]
  have eng : ∀ (c : Nat) (x : Int), c ≤ 5 →
      engineCheck 5 { current := c, ttl := x } =
        (200, RLBody.allow ((5 : Int) - (c : Int))) := by
    intro c x hc
    simp [engineCheck, Nat.not_lt.mpr hc]
  have E1 : postRatelimitMem store t0 "test-user" 5 10 =
      ((200, RLBody.allow 4),
       memSet store "rl:test-user" { count := 1, expiresAt := t0 + 10000 }) := by
    simp [postRatelimitMem, hk, rateLimitMemory, h0, engineCheck]
  have G1 : memGet (postRatelimitMem store t0 "test-user" 5 10).2
      "rl:test-user" = some { count := 1, expiresAt := t0 + 10000 } := by
    rw [E1]
    exact memGet_memSet_self _ _ _
  have E2 : postRatelimitMem (postRatelimitMem store t0 "test-user" 5 10).2
      t1 "test-user" 5 10 =
      ((200, RLBody.allow 3),
       memSet (postRatelimitMem store t0 "test-user" 5 10).2 "rl:test-user"
         { count := 2, expiresAt := t0 + 10000 }) := by
    rw [step _ t1 1 G1 hb1, eng 2 _ (by norm_num)]
    norm_num
  have G2 : memGet (postRatelimitMem
      (postRatelimitMem store t0 "test-user" 5 10).2 t1 "test-user" 5 10).2
      "rl:test-user" = some { count := 2, expiresAt := t0 + 10000 } := by
    rw [E2]
    exact memGet_memSet_self _ _ _
  have E3 : postRatelimitMem (postRatelimitMem
      (postRatelimitMem store t0 "test-user" 5 10).2 t1 "test-user" 5 10).2
      t2 "test-user" 5 10 =
      ((200, RLBody.allow 2),
       memSet (postRatelimitMem
         (postRatelimitMem store t0 "test-user" 5 10).2 t1 "test-user" 5 10).2
         "rl:test-user" { count := 3, expiresAt := t0 + 10000 }) := by
    rw [step _ t2 2 G2 hb2, eng 3 _ (by norm_num)]
    norm_num
  have G3 : memGet (postRatelimitMem (postRatelimitMem
      (postRatelimitMem store t0 "test-user" 5 10).2 t1 "test-user" 5 10).2
      t2 "test-user" 5 10).2 "rl:test-user" =
      some { count := 3, expiresAt := t0 + 10000 } := by
    rw [E3]
    exact memGet_memSet_self _ _ _
  have E4 : postRatelimitMem (postRatelimitMem (postRatelimitMem
      (postRatelimitMem store t0 "test-user" 5 10).2 t1 "test-user" 5 10).2
      t2 "test-user" 5 10).2 t3 "test-user" 5 10 =
      ((200, RLBody.allow 1),
       memSet (postRatelimitMem (postRatelimitMem
         (postRatelimitMem store t0 "test-user" 5 10).2 t1 "test-user" 5 10).2
         t2 "test-user" 5 10).2
         "rl:test-user" { count := 4, expiresAt := t0 + 10000 }) := by
    rw [step _ t3 3 G3 hb3, eng 4 _ (by norm_num)]
    norm_num
  have G4 : memGet (postRatelimitMem (postRatelimitMem (postRatelimitMem
      (postRatelimitMem store t0 "test-user" 5 10).2 t1 "test-user" 5 10).2
      t2 "test-user" 5 10).2 t3 "test-user" 5 10).2 "rl:test-user" =
      some { count := 4, expiresAt := t0 + 10000 } := by
    rw [E4]
    exact memGet_memSet_self _ _ _
  have E5 : postRatelimitMem (postRatelimitMem (postRatelimitMem
      (postRatelimitMem
      (postRatelimitMem store t0 "test-user" 5 10).2 t1 "test-user" 5 10).2
      t2 "test-user" 5 10).2 t3 "test-user" 5 10).2 t4 "test-user" 5 10 =
      ((200, RLBody.allow 0),
       memSet (postRatelimitMem (postRatelimitMem (postRatelimitMem
         (postRatelimitMem store t0 "test-user" 5 10).2 t1 "test-user" 5 10).2
         t2 "test-user" 5 10).2 t3 "test-user" 5 10).2
         "rl:test-user" { count := 5, expiresAt := t0 + 10000 }) := by
    rw [step _ t4 4 G4 hb4, eng 5 _ (by norm_num)]
    norm_num
  have G5 : memGet (postRatelimitMem (postRatelimitMem (postRatelimitMem
      (postRatelimitMem
      (postRatelimitMem store t0 "test-user" 5 10).2 t1 "test-user" 5 10).2
      t2 "test-user" 5 10).2 t3 "test-user" 5 10).2 t4 "test-user" 5 10).2
      "rl:test-user" = some { count := 5, expiresAt := t0 + 10000 } := by
    rw [E5]
    exact memGet_memSet_self _ _ _
  have E6 : postRatelimitMem (postRatelimitMem (postRatelimitMem
      (postRatelimitMem (postRatelimitMem
      (postRatelimitMem store t0 "test-user" 5 10).2 t1 "test-user" 5 10).2
      t2 "test-user" 5 10).2 t3 "test-user" 5 10).2 t4 "test-user" 5 10).2
      t5 "test-user" 5 10 =
      ((429, RLBody.deny (jsCeilDiv1000 (t0 + 10000 - t5) : Int)),
       memSet (postRatelimitMem (postRatelimitMem (postRatelimitMem
         (postRatelimitMem (postRatelimitMem store t0 "test-user" 5 10).2
         t1 "test-user" 5 10).2
         t2 "test-user" 5 10).2 t3 "test-user" 5 10).2 t4 "test-user" 5 10).2
         "rl:test-user" { count := 6, expiresAt := t0 + 10000 }) := by
    rw [step _ t5 5 G5 hb5]
    simp [engineCheck]
  have hra : jsCeilDiv1000 (t0 + 10000 - t5) ≤ 10 := by
    have h1 : t0 + 10000 - t5 + 999 ≤ 10999 := by omega
    calc jsCeilDiv1000 (t0 + 10000 - t5) = (t0 + 10000 - t5 + 999) / 1000 := rfl
    _ ≤ 10999 / 1000 := Nat.div_le_div_right h1
    _ = 10 := by norm_num
  simp only [ScenarioAProp]
  refine ⟨by rw [E1], by rw [E2], by rw [E3], by rw [E4], by rw [E5],
    G1, G2, G3, G4, G5,
    ⟨(jsCeilDiv1000 (t0 + 10000 - t5) : Int), by rw [E6], ?_, ?_⟩⟩
  · exact Int.natCast_nonneg _
  · exact_mod_cast hra

theorem scenarioA_trace_witness :
    memGet ([] : MemStore) "rl:test-user" = none ∧
    ScenarioAProp [] 0 1 2 3 4 5 := by
  refine ⟨rfl, ?_⟩
  exact scenarioA_trace [] 0 1 2 3 4 5 rfl (by norm_num) (by norm_num)
    (by norm_num) (by norm_num) (by norm_num) (by norm_num)

end RatelimitProxy
